import Mathlib

/-!
Shallow embedding of the session-tracking core of the tg-tracker repository
(src/database.py and the reminder evaluation in src/bot.py).

Modelling conventions:
- Timestamps are integer seconds (`Int`); Python datetime subtraction followed
  by `int(...total_seconds())` is exact subtraction at this resolution.
- Dates are natural day numbers (`Nat`); day `d` spans the seconds
  `[86400*d, 86400*d + 86399]`, and `weekday d = d % 7` with `0 = Monday`,
  matching `date.weekday()` up to the choice of epoch.
- Each SQLite table is a list of rows in insertion order; `INSERT` appends,
  `UPDATE ... WHERE` maps over the list.  `ORDER BY` clauses on the two
  listing queries (sessions by timeframe, breaks of a session) are dropped:
  every consumer in scope aggregates their results order-insensitively.
- `AUTOINCREMENT` ids are modelled by `nextSessionId` / `nextBreakId`
  counters.
-/

namespace Tracker

/-- Session status, the three values of the `SESSION_STATUS` table in
database.py: `active`, `paused`, `completed`. -/
inductive Status where
  | active
  | paused
  | completed
deriving DecidableEq, Repr

/-- A row of the `sessions` table. -/
structure Session where
  id : Nat
  userId : Nat
  startTime : Int
  endTime : Option Int
  duration : Option Int
  status : Status
  category : String
deriving DecidableEq, Repr

/-- A row of the `breaks` table. -/
structure BreakRow where
  id : Nat
  sessionId : Nat
  userId : Nat
  startTime : Int
  endTime : Option Int
  duration : Option Int
  reason : String
deriving DecidableEq, Repr

/-- A row of the `reminder_settings` table (the `created_at` / `updated_at`
bookkeeping columns are omitted; no claim observes them). -/
structure SettingsRow where
  userId : Nat
  workReminderEnabled : Bool
  workReminderMinutes : Int
  breakReminderEnabled : Bool
  breakReminderMinutes : Int
  longBreakReminderEnabled : Bool
  longBreakReminderMinutes : Int
  dailyGoalEnabled : Bool
  dailyGoalMinutes : Int
deriving DecidableEq, Repr

/-- A row of the `sent_reminders` table (the `message_id` column is omitted;
no claim observes it). -/
structure SentRow where
  userId : Nat
  reminderType : String
  sentAt : Int
  sessionId : Option Nat
deriving DecidableEq, Repr

/-- The SQLite database state: one list per table plus the autoincrement
counters of the two tables whose generated ids the code reads back. -/
structure DB where
  sessions : List Session := []
  breaks : List BreakRow := []
  reminderSettings : List SettingsRow := []
  sentReminders : List SentRow := []
  nextSessionId : Nat := 1
  nextBreakId : Nat := 1
deriving DecidableEq, Repr

/-- The freshly initialised database (`Database.init_db` creates empty
tables). -/
def DB.empty : DB := {}

/-- The status filter of `SELECT ... WHERE user_id = ? AND status IN
(active, paused)` used by `start_work_session` and `get_active_session`. -/
def isOpenFor (userId : Nat) (s : Session) : Bool :=
  s.userId == userId && (decide (s.status = .active) || decide (s.status = .paused))

/-- The filter of `SELECT ... WHERE user_id = ? AND status = active`. -/
def isActiveFor (userId : Nat) (s : Session) : Bool :=
  s.userId == userId && decide (s.status = .active)

/-- The filter of `SELECT ... WHERE user_id = ? AND status = paused`. -/
def isPausedFor (userId : Nat) (s : Session) : Bool :=
  s.userId == userId && decide (s.status = .paused)

/-- The embedding of `UPDATE sessions SET ... WHERE id = ?`: rewrite every
row whose `id` matches. -/
def sessUpd (l : List Session) (sid : Nat) (f : Session → Session) : List Session :=
  l.map (fun t => if t.id == sid then f t else t)

/-- `Database.start_work_session` (database.py:152).  Checks for an
active or paused session of the user; returns `-1` and leaves the database
untouched if one exists, otherwise inserts a fresh `active` session with
`start_time = now` and returns its id. -/
def start_work_session (db : DB) (userId : Nat) (category : String) (now : Int) :
    Int × DB :=
  match db.sessions.find? (isOpenFor userId) with
  | some _ => (-1, db)
  | none =>
      let sid := db.nextSessionId
      (Int.ofNat sid,
        { db with
            sessions := db.sessions ++
              [{ id := sid, userId := userId, startTime := now, endTime := none,
                 duration := none, status := .active, category := category }],
            nextSessionId := sid + 1 })

/-- `Database.get_active_session` (database.py:221): first session of the
user with status in `{active, paused}`, if any. -/
def get_active_session (db : DB) (userId : Nat) : Option Session :=
  db.sessions.find? (isOpenFor userId)

/-- `Database.end_work_session` (database.py:182).  Looks up a session of
the user with status exactly `active`; if none exists returns `none`.
Otherwise sets `end_time = now`, `duration = now - start_time` and status
`completed`, then re-reads the row by id and returns it. -/
def end_work_session (db : DB) (userId : Nat) (now : Int) : Option Session × DB :=
  match db.sessions.find? (isActiveFor userId) with
  | none => (none, db)
  | some s =>
      let dur := now - s.startTime
      let db' := { db with
        sessions := sessUpd db.sessions s.id (fun t =>
          { t with endTime := some now, duration := some dur,
                   status := .completed }) }
      (db'.sessions.find? (fun t => t.id == s.id), db')

/-- `Database.pause_work_session` (database.py:286).  Looks up an `active`
session of the user; if none exists returns `none`.  Otherwise sets its
status to `paused`, inserts an open break (`end_time` and `duration` NULL)
starting now with the given reason, and returns the session row as it was
read (still showing status `active`, as the Python dict snapshot does). -/
def pause_work_session (db : DB) (userId : Nat) (reason : String) (now : Int) :
    Option Session × DB :=
  match db.sessions.find? (isActiveFor userId) with
  | none => (none, db)
  | some s =>
      (some s,
        { db with
            sessions := sessUpd db.sessions s.id (fun t => { t with status := .paused }),
            breaks := db.breaks ++
              [{ id := db.nextBreakId, sessionId := s.id, userId := userId,
                 startTime := now, endTime := none, duration := none, reason := reason }],
            nextBreakId := db.nextBreakId + 1 })

/-- `Database.resume_work_session` (database.py:336).  Looks up a `paused`
session of the user; if none exists returns `none`.  Otherwise sets its
status to `active` and closes every break of that session with NULL
`end_time`, setting `end_time = now` and `duration` to the difference of
the epoch seconds (the `strftime` arithmetic), and returns the session row
as it was read. -/
def resume_work_session (db : DB) (userId : Nat) (now : Int) : Option Session × DB :=
  match db.sessions.find? (isPausedFor userId) with
  | none => (none, db)
  | some s =>
      (some s,
        { db with
            sessions := sessUpd db.sessions s.id (fun t => { t with status := .active }),
            breaks := db.breaks.map (fun b =>
              if b.sessionId == s.id && b.endTime.isNone then
                { b with endTime := some now, duration := some (now - b.startTime) }
              else b) })

/-- `Database.get_session_breaks` (database.py:372): all break rows of a
session. -/
def get_session_breaks (db : DB) (sessionId : Nat) : List BreakRow :=
  db.breaks.filter (fun b => b.sessionId == sessionId)

/-- `Database.get_sessions_by_timeframe`.  The class body of database.py
defines this method twice; Python keeps the later definition
(database.py:428), whose `WHERE` clause keeps exactly the sessions whose
`start_time` lies in `[start_date, end_date]`.  The earlier overlap-based
definition (database.py:257) is dead code — see `overlapsWindow` below. -/
def get_sessions_by_timeframe (db : DB) (userId : Nat) (startDate endDate : Int) :
    List Session :=
  db.sessions.filter (fun s =>
    s.userId == userId && decide (startDate ≤ s.startTime) && decide (s.startTime ≤ endDate))

/-- Window predicate of the shadowed first definition of
`get_sessions_by_timeframe` (database.py:257), which is also the selection
rule the specification describes: the session starts in the window, or ends
in the window, or starts at or before the window start and is still open or
ends at or after the window end.  It is dead code in the source and is kept
here only to compare the specified selection with the effective one. -/
def overlapsWindow (startDate endDate : Int) (s : Session) : Bool :=
  (decide (startDate ≤ s.startTime) && decide (s.startTime ≤ endDate)) ||
  (match s.endTime with
   | some e => decide (startDate ≤ e) && decide (e ≤ endDate)
   | none => false) ||
  (decide (s.startTime ≤ startDate) &&
   (match s.endTime with
    | some e => decide (endDate ≤ e)
    | none => true))

/-- First second of day `d` (`datetime.combine(date, time.min)`). -/
def dayStart (d : Nat) : Int := 86400 * (d : Int)

/-- Last whole second of day `d`.  `datetime.combine(date, time.max)` is
23:59:59.999999; at whole-second resolution the comparisons against it
coincide with comparisons against the last whole second of the day. -/
def dayEnd (d : Nat) : Int := 86400 * (d : Int) + 86399

/-- Python truthiness of a nullable integer column: `None` and `0` are
falsy (the `if break_item[end_time] and break_item[duration]` guard). -/
def truthyInt : Option Int → Bool
  | none => false
  | some v => v != 0

/-- Result record of `Database.get_daily_stats`.  The Python `categories`
dict is modelled as a total function from category label to
`(count, duration)`, with `(0, 0)` for labels absent from the dict; the
formatted `date` string is replaced by the day number. -/
structure DayStats where
  date : Nat
  total_sessions : Nat
  total_duration : Int
  total_breaks : Nat
  break_duration : Int
  categories : String → Nat × Int
  completed_sessions : Nat
  active_sessions : Nat

/-- `Database.get_daily_stats` (database.py:448).  Selects the sessions of
the day via `get_sessions_by_timeframe`; sums `duration`, counts and
category figures over the `completed` sessions only; counts `active` and
`paused` sessions; counts all break rows of every selected session and sums
the durations of the closed ones.  The single accumulating loop of the
source is embedded one field at a time (each accumulator is independent).
Completed sessions always carry a duration, read here with `Option.getD 0`. -/
def get_daily_stats (db : DB) (userId : Nat) (date : Nat) : DayStats :=
  let sessions := get_sessions_by_timeframe db userId (dayStart date) (dayEnd date)
  let completed := sessions.filter (fun s => decide (s.status = .completed))
  { date := date
    total_sessions := sessions.length
    total_duration := (completed.map (fun s => s.duration.getD 0)).sum
    total_breaks := (sessions.map (fun s => (get_session_breaks db s.id).length)).sum
    break_duration := (sessions.map (fun s =>
      (((get_session_breaks db s.id).filter
          (fun b => b.endTime.isSome && truthyInt b.duration)).map
        (fun b => b.duration.getD 0)).sum)).sum
    categories := fun c =>
      let inCat := completed.filter (fun s => s.category == c)
      (inCat.length, (inCat.map (fun s => s.duration.getD 0)).sum)
    completed_sessions := completed.length
    active_sessions :=
      (sessions.filter (fun s =>
        decide (s.status = .active) || decide (s.status = .paused))).length }

/-- Monday of the week containing day `d` (`date - timedelta(days =
date.weekday())`, with `weekday d = d % 7`, `0 = Monday`). -/
def mondayOf (d : Nat) : Nat := d - d % 7

/-- Result record of `Database.get_weekly_stats`, with the same modelling
of `categories` as `DayStats` and dates as day numbers. -/
structure WeekStats where
  start_date : Nat
  end_date : Nat
  total_sessions : Nat
  total_duration : Int
  total_breaks : Nat
  break_duration : Int
  categories : String → Nat × Int
  daily_stats : List DayStats

/-- `Database.get_weekly_stats` (database.py:500).  Computes the Monday of
the week of the given date, runs `get_daily_stats` for the seven days
Monday through Sunday in order, and sums every field (merging categories
key by key) over that list. -/
def get_weekly_stats (db : DB) (userId : Nat) (date : Nat) : WeekStats :=
  let startDate := mondayOf date
  let days := (List.range 7).map (fun i => startDate + i)
  let daily := days.map (get_daily_stats db userId)
  { start_date := startDate
    end_date := startDate + 6
    total_sessions := (daily.map (fun d => d.total_sessions)).sum
    total_duration := (daily.map (fun d => d.total_duration)).sum
    total_breaks := (daily.map (fun d => d.total_breaks)).sum
    break_duration := (daily.map (fun d => d.break_duration)).sum
    categories := fun c =>
      ((daily.map (fun d => (d.categories c).1)).sum,
       (daily.map (fun d => (d.categories c).2)).sum)
    daily_stats := daily }

/-- One pass of the week loop of `Database.get_monthly_stats`
(database.py:571): while the current day is on or before the last day of
the month, a week is recorded when the current day is a Monday or the first
day of the month (and the loop then jumps 7 days ahead); otherwise the loop
jumps to the next Monday without recording a week.  `firstDay` is the
absolute day number of day 1 of the month, so `current.day == 1` is
`current == firstDay`.  The loop advances by at least one day per
iteration, so `len + 1` units of fuel always suffice. -/
def monthAnchorsAux (firstDay lastDay : Nat) : Nat → Nat → List Nat
  | 0, _ => []
  | fuel + 1, current =>
      if current ≤ lastDay then
        if current % 7 == 0 || current == firstDay then
          current :: monthAnchorsAux firstDay lastDay fuel (current + 7)
        else
          monthAnchorsAux firstDay lastDay fuel (current + (7 - current % 7))
      else []

/-- Anchor dates at which `Database.get_monthly_stats` records a week, for
the month whose first day is absolute day `firstDay` and which has `len`
days. -/
def monthAnchors (firstDay len : Nat) : List Nat :=
  monthAnchorsAux firstDay (firstDay + len - 1) (len + 1) firstDay

/-- Result record of `Database.get_monthly_stats`.  The month is identified
by the absolute day number of its first day and its length; `year`,
`month` and the locale month name are presentation fields not modelled. -/
structure MonthStats where
  total_sessions : Nat
  total_duration : Int
  total_breaks : Nat
  break_duration : Int
  categories : String → Nat × Int
  weekly_stats : List WeekStats

/-- `Database.get_monthly_stats` (database.py:548).  Selects the sessions
of the month window via `get_sessions_by_timeframe`, records one
`get_weekly_stats` result per anchor of the week loop, and computes the
totals and categories directly from the selected sessions (completed ones
only for durations and categories), with break counting as in
`get_daily_stats`. -/
def get_monthly_stats (db : DB) (userId : Nat) (firstDay len : Nat) : MonthStats :=
  let sessions := get_sessions_by_timeframe db userId
    (dayStart firstDay) (dayEnd (firstDay + len - 1))
  let completed := sessions.filter (fun s => decide (s.status = .completed))
  { total_sessions := sessions.length
    total_duration := (completed.map (fun s => s.duration.getD 0)).sum
    total_breaks := (sessions.map (fun s => (get_session_breaks db s.id).length)).sum
    break_duration := (sessions.map (fun s =>
      (((get_session_breaks db s.id).filter
          (fun b => b.endTime.isSome && truthyInt b.duration)).map
        (fun b => b.duration.getD 0)).sum)).sum
    categories := fun c =>
      let inCat := completed.filter (fun s => s.category == c)
      (inCat.length, (inCat.map (fun s => s.duration.getD 0)).sum)
    weekly_stats := (monthAnchors firstDay len).map (get_weekly_stats db userId) }

/-- Default reminder settings returned by `Database.get_reminder_settings`
when the user has no stored row; the values mirror the literal dict in
database.py:859. -/
def defaultReminderSettings (userId : Nat) : SettingsRow :=
  { userId := userId
    workReminderEnabled := true
    workReminderMinutes := 60
    breakReminderEnabled := true
    breakReminderMinutes := 15
    longBreakReminderEnabled := true
    longBreakReminderMinutes := 120
    dailyGoalEnabled := false
    dailyGoalMinutes := 480 }

/-- `Database.get_reminder_settings` (database.py:843).  Reads the settings
row of the user; when absent, returns the default values.  The function
executes only a `SELECT`, so the returned state is the input state; the
pair makes that explicit. -/
def get_reminder_settings (db : DB) (userId : Nat) : SettingsRow × DB :=
  match db.reminderSettings.find? (fun r => r.userId == userId) with
  | some r => (r, db)
  | none => (defaultReminderSettings userId, db)

/-- Seconds from the Unix epoch to `datetime.min` (0001-01-01 00:00:00),
the sentinel `get_last_reminder_time` returns when no reminder of the kind
was ever sent. -/
def datetimeMinTs : Int := -62135596800

/-- `Database.get_last_reminder_time` (database.py:915).  `ORDER BY sent_at
DESC LIMIT 1` is the maximum `sent_at` among the rows of the user and
reminder kind; `datetime.min` when there are none. -/
def get_last_reminder_time (db : DB) (userId : Nat) (reminderType : String) : Int :=
  ((db.sentReminders.filter (fun r =>
      r.userId == userId && r.reminderType == reminderType)).map
    (fun r => r.sentAt)).foldl max datetimeMinTs

/-- `Database.log_sent_reminder` (database.py:905): append one row to
`sent_reminders`; `sent_at DEFAULT CURRENT_TIMESTAMP` is the time of the
evaluation tick. -/
def log_sent_reminder (db : DB) (userId : Nat) (reminderType : String)
    (sessionId : Option Nat) (now : Int) : DB :=
  { db with sentReminders := db.sentReminders ++
      [{ userId := userId, reminderType := reminderType, sentAt := now,
         sessionId := sessionId }] }

/-- Work-reminder portion of `check_and_send_reminders` (bot.py:1576) for a
single user at a single tick.  Reads the settings, looks up the active or
paused session, computes the session duration in minutes as rational
seconds over 60 as the float division does, and fires — appending the
`work_reminder` log row — exactly when the reminder is enabled, the
duration reaches `work_reminder_minutes`, and at least
`work_reminder_minutes` minutes passed since the last `work_reminder` row.
Returns whether it fired together with the resulting state. -/
def check_work_reminder (db : DB) (userId : Nat) (now : Int) : Bool × DB :=
  let settings := (get_reminder_settings db userId).1
  match get_active_session db userId with
  | none => (false, db)
  | some s =>
      let sessionDurationMin : ℚ := ((now - s.startTime : Int) : ℚ) / 60
      if settings.workReminderEnabled = true ∧
          (settings.workReminderMinutes : ℚ) ≤ sessionDurationMin then
        let lastReminder := get_last_reminder_time db userId "work_reminder"
        let minutesSinceLast : ℚ := ((now - lastReminder : Int) : ℚ) / 60
        if (settings.workReminderMinutes : ℚ) ≤ minutesSinceLast then
          (true, log_sent_reminder db userId "work_reminder" (some s.id) now)
        else (false, db)
      else (false, db)

/-- One state-machine call, with the handler discarding the returned row
(bot.py invokes each operation once per user interaction). -/
inductive Op where
  | startOp (userId : Nat) (category : String) (now : Int)
  | pauseOp (userId : Nat) (reason : String) (now : Int)
  | resumeOp (userId : Nat) (now : Int)
  | endOp (userId : Nat) (now : Int)

/-- State reached by one operation. -/
def applyOp (db : DB) : Op → DB
  | .startOp u c t => (start_work_session db u c t).2
  | .pauseOp u r t => (pause_work_session db u r t).2
  | .resumeOp u t => (resume_work_session db u t).2
  | .endOp u t => (end_work_session db u t).2

/-- States reachable from the freshly initialised database by session
state-machine operations. -/
inductive Reachable : DB → Prop where
  | base : Reachable DB.empty
  | step {db : DB} (o : Op) : Reachable db → Reachable (applyOp db o)

/-- Number of sessions of the user with status in `{active, paused}`. -/
def openCount (db : DB) (userId : Nat) : Nat :=
  db.sessions.countP (isOpenFor userId)

/-- Number of break rows of the session with NULL `end_time`. -/
def openBreakCount (db : DB) (sessionId : Nat) : Nat :=
  db.breaks.countP (fun b => b.sessionId == sessionId && b.endTime.isNone)

/-- Break invariant of the specification: every session has at most one
open break, and it has one exactly when its status is `paused`. -/
def BreakInv (db : DB) : Prop :=
  ∀ s ∈ db.sessions, openBreakCount db s.id ≤ 1 ∧
    (openBreakCount db s.id = 1 ↔ s.status = .paused)

/-- Inductive invariant of the database: session ids are fresh and
pairwise distinct, break rows reference created sessions, every user has
at most one open session, and the break invariant holds. -/
def Inv (db : DB) : Prop :=
  (∀ s ∈ db.sessions, s.id < db.nextSessionId) ∧
  (db.sessions.map (fun s => s.id)).Nodup ∧
  (∀ b ∈ db.breaks, b.sessionId < db.nextSessionId) ∧
  (∀ u, openCount db u ≤ 1) ∧
  BreakInv db

/-! Helper lemmas about the embedded operations. -/

theorem isOpenFor_eq_true {u : Nat} {s : Session} :
    isOpenFor u s = true ↔ s.userId = u ∧ (s.status = .active ∨ s.status = .paused) := by
  simp [isOpenFor]

theorem isActiveFor_eq_true {u : Nat} {s : Session} :
    isActiveFor u s = true ↔ s.userId = u ∧ s.status = .active := by
  simp [isActiveFor]

theorem isPausedFor_eq_true {u : Nat} {s : Session} :
    isPausedFor u s = true ↔ s.userId = u ∧ s.status = .paused := by
  simp [isPausedFor]

theorem find?_split {α : Type} {p : α → Bool} :
    ∀ {l : List α} {a : α}, l.find? p = some a →
      ∃ l₁ l₂, l = l₁ ++ a :: l₂ ∧ (∀ x ∈ l₁, p x = false) ∧ p a = true := by
  intro l
  induction l with
  | nil => intro a h; simp at h
  | cons b t ih =>
      intro a h
      by_cases hpb : p b = true
      · rw [List.find?_cons_of_pos _ hpb] at h
        obtain rfl : b = a := by injection h
        exact ⟨[], t, rfl, by simp, hpb⟩
      · rw [List.find?_cons_of_neg _ (by simpa using hpb)] at h
        obtain ⟨l₁, l₂, rfl, hl₁, hpa⟩ := ih h
        exact ⟨b :: l₁, l₂, rfl, by
          intro x hx
          rcases List.mem_cons.mp hx with rfl | hx
          · simpa using hpb
          · exact hl₁ x hx, hpa⟩

theorem sessUpd_append {l₁ l₂ : List Session} {sid : Nat} {f : Session → Session} :
    sessUpd (l₁ ++ l₂) sid f = sessUpd l₁ sid f ++ sessUpd l₂ sid f := by
  simp [sessUpd]

theorem sessUpd_cons {a : Session} {l : List Session} {sid : Nat} {f : Session → Session} :
    sessUpd (a :: l) sid f = (if a.id == sid then f a else a) :: sessUpd l sid f := rfl

theorem sessUpd_id {l : List Session} {sid : Nat} {f : Session → Session}
    (h : ∀ t ∈ l, t.id ≠ sid) : sessUpd l sid f = l := by
  induction l with
  | nil => rfl
  | cons a t ih =>
      rw [sessUpd_cons, if_neg, ih]
      · intro x hx; exact h x (List.mem_cons_of_mem _ hx)
      · simpa using h a (List.mem_cons_self _ _)

theorem ids_split_of_nodup {l₁ l₂ : List Session} {s : Session}
    (hnd : ((l₁ ++ s :: l₂).map (fun t => t.id)).Nodup) :
    (∀ t ∈ l₁, t.id ≠ s.id) ∧ (∀ t ∈ l₂, t.id ≠ s.id) := by
  rw [List.map_append, List.nodup_append] at hnd
  obtain ⟨-, hcons, hdisj⟩ := hnd
  constructor
  · intro t ht he
    exact hdisj (List.mem_map_of_mem _ ht) (by simp [he])
  · intro t ht he
    rw [List.map_cons, List.nodup_cons] at hcons
    exact hcons.1 (he ▸ List.mem_map_of_mem _ ht)

theorem sessUpd_split {l₁ l₂ : List Session} {s : Session} {f : Session → Session}
    (h1 : ∀ t ∈ l₁, t.id ≠ s.id) (h2 : ∀ t ∈ l₂, t.id ≠ s.id) :
    sessUpd (l₁ ++ s :: l₂) s.id f = l₁ ++ f s :: l₂ := by
  rw [sessUpd_append, sessUpd_cons, sessUpd_id h1, sessUpd_id h2, if_pos (by simp)]

theorem find?_id_split {l₁ l₂ : List Session} {s' : Session} {sid : Nat}
    (h1 : ∀ t ∈ l₁, t.id ≠ sid) (hs : s'.id = sid) :
    (l₁ ++ s' :: l₂).find? (fun t => t.id == sid) = some s' := by
  induction l₁ with
  | nil => simp [List.find?_cons_of_pos, hs]
  | cons a t ih =>
      rw [List.cons_append, List.find?_cons_of_neg]
      · exact ih (fun x hx => h1 x (List.mem_cons_of_mem _ hx))
      · simpa using h1 a (List.mem_cons_self _ _)

theorem openCount_def {db : DB} {u : Nat} :
    openCount db u = db.sessions.countP (isOpenFor u) := rfl

theorem openBreakCount_def {db : DB} {sid : Nat} :
    openBreakCount db sid =
      db.breaks.countP (fun b => b.sessionId == sid && b.endTime.isNone) := rfl

theorem inv_empty : Inv DB.empty := by
  refine ⟨?_, ?_, ?_, ?_, ?_⟩ <;>
    simp [DB.empty, Inv, BreakInv, openCount, openBreakCount]

theorem inv_start {db : DB} (h : Inv db) (u : Nat) (c : String) (t : Int) :
    Inv (start_work_session db u c t).2 := by
  obtain ⟨hA, hB, hC, hD, hE⟩ := h
  cases hf : db.sessions.find? (isOpenFor u) with
  | some s =>
      simpa [start_work_session, hf] using ⟨hA, hB, hC, hD, hE⟩
  | none =>
      have hzero : db.sessions.countP (isOpenFor u) = 0 := by
        rw [List.countP_eq_zero]
        intro a ha
        exact List.find?_eq_none.mp hf a ha
      simp only [start_work_session, hf]
      refine ⟨?_, ?_, ?_, ?_, ?_⟩
      · intro s hs
        rcases List.mem_append.mp hs with hs | hs
        · exact Nat.lt_succ_of_lt (hA s hs)
        · rw [List.mem_singleton] at hs
          subst hs
          exact Nat.lt_succ_self _
      · rw [List.map_append, List.nodup_append]
        refine ⟨hB, by simp, ?_⟩
        intro a ha hb
        simp only [List.map_cons, List.map_nil, List.mem_singleton] at hb
        obtain ⟨x, hx, rfl⟩ := List.mem_map.mp ha
        exact absurd hb (Nat.ne_of_lt (hA x hx))
      · intro b hb
        exact Nat.lt_succ_of_lt (hC b hb)
      · intro u'
        rw [openCount_def]
        show (db.sessions ++ [_]).countP _ ≤ 1
        rw [List.countP_append, List.countP_cons, List.countP_nil]
        by_cases hu : u = u'
        · subst hu
          rw [hzero]
          simp [isOpenFor]
        · have hnew : isOpenFor u' { id := db.nextSessionId, userId := u,
                                     startTime := t, endTime := none, duration := none,
                                     status := Status.active, category := c } = false := by
            simp [isOpenFor, hu]
          rw [hnew]
          have := hD u'
          rw [openCount_def] at this
          simpa using this
      · intro s hs
        rcases List.mem_append.mp hs with hs | hs
        · exact hE s hs
        · rw [List.mem_singleton] at hs
          subst hs
          have h0 : openBreakCount db db.nextSessionId = 0 := by
            rw [openBreakCount_def, List.countP_eq_zero]
            intro b hb h
            simp only [Bool.and_eq_true, beq_iff_eq] at h
            exact absurd h.1 (Nat.ne_of_lt (hC b hb))
          show openBreakCount db db.nextSessionId ≤ 1 ∧
            (openBreakCount db db.nextSessionId = 1 ↔ Status.active = Status.paused)
          rw [h0]
          simp

theorem inv_pause {db : DB} (h : Inv db) (u : Nat) (r : String) (t : Int) :
    Inv (pause_work_session db u r t).2 := by
  obtain ⟨hA, hB, hC, hD, hE⟩ := h
  cases hf : db.sessions.find? (isActiveFor u) with
  | none =>
      simpa [pause_work_session, hf] using ⟨hA, hB, hC, hD, hE⟩
  | some s =>
      obtain ⟨l₁, l₂, hL, hl₁, hps⟩ := find?_split hf
      obtain ⟨hsu, hsa⟩ := isActiveFor_eq_true.mp hps
      have hmem : s ∈ db.sessions := by
        rw [hL]; exact List.mem_append_right _ (List.mem_cons_self _ _)
      have hnd' : ((l₁ ++ s :: l₂).map (fun t => t.id)).Nodup := by rw [← hL]; exact hB
      obtain ⟨hn1, hn2⟩ := ids_split_of_nodup hnd'
      have hupd : sessUpd db.sessions s.id (fun t => { t with status := Status.paused }) =
          l₁ ++ { s with status := Status.paused } :: l₂ := by
        rw [hL]; exact sessUpd_split hn1 hn2
      have hobs : openBreakCount db s.id = 0 := by
        have h1 := hE s hmem
        have hne : openBreakCount db s.id ≠ 1 := by
          intro hx
          rw [h1.2.mp hx] at hsa
          cases hsa
        omega
      simp only [pause_work_session, hf, hupd]
      refine ⟨?_, ?_, ?_, ?_, ?_⟩
      · intro x hx
        rcases List.mem_append.mp hx with hx | hx
        · exact hA x (by rw [hL]; exact List.mem_append_left _ hx)
        · rcases List.mem_cons.mp hx with rfl | hx
          · exact hA s hmem
          · refine hA x ?_
            rw [hL]
            exact List.mem_append_right _ (List.mem_cons_of_mem _ hx)
      · have hids : ((l₁ ++ { s with status := Status.paused } :: l₂).map (fun t => t.id)) =
            ((l₁ ++ s :: l₂).map (fun t => t.id)) := by simp
        rw [hids]
        exact hnd'
      · intro b hb
        rcases List.mem_append.mp hb with hb | hb
        · exact hC b hb
        · rw [List.mem_singleton] at hb
          subst hb
          exact hA s hmem
      · intro u'
        have hpp : isOpenFor u' { s with status := Status.paused } = isOpenFor u' s := by
          simp [isOpenFor, hsa]
        have hd := hD u'
        rw [openCount_def, hL, List.countP_append, List.countP_cons] at hd
        rw [openCount_def]
        show (l₁ ++ _ :: l₂).countP _ ≤ 1
        rw [List.countP_append, List.countP_cons, hpp]
        exact hd
      · intro x hx
        have hcnt : ∀ sid, openBreakCount (pause_work_session db u r t).2 sid =
            openBreakCount db sid + (if s.id = sid then 1 else 0) := by
          intro sid
          simp only [pause_work_session, hf]
          rw [openBreakCount_def, openBreakCount_def]
          show (db.breaks ++ [_]).countP _ = _
          rw [List.countP_append, List.countP_cons, List.countP_nil]
          congr 1
          by_cases hsid : s.id = sid <;> simp [hsid]
        have hcnt' : ∀ sid, openBreakCount
            { db with
                sessions := l₁ ++ { s with status := Status.paused } :: l₂,
                breaks := db.breaks ++
                  [{ id := db.nextBreakId, sessionId := s.id, userId := u,
                     startTime := t, endTime := none, duration := none, reason := r }],
                nextBreakId := db.nextBreakId + 1 } sid =
            openBreakCount db sid + (if s.id = sid then 1 else 0) := by
          intro sid
          have := hcnt sid
          simp only [pause_work_session, hf, hupd] at this
          exact this
        rcases List.mem_append.mp hx with hx | hx
        · have hxid : x.id ≠ s.id := hn1 x hx
          rw [hcnt' x.id, if_neg (fun hh => hxid hh.symm), Nat.add_zero]
          exact hE x (by rw [hL]; exact List.mem_append_left _ hx)
        · rcases List.mem_cons.mp hx with rfl | hx
          · show openBreakCount _ s.id ≤ 1 ∧ (openBreakCount _ s.id = 1 ↔ Status.paused = Status.paused)
            rw [hcnt' s.id, if_pos rfl, hobs]
            simp
          · have hxid : x.id ≠ s.id := hn2 x hx
            rw [hcnt' x.id, if_neg (fun hh => hxid hh.symm), Nat.add_zero]
            refine hE x ?_
            rw [hL]
            exact List.mem_append_right _ (List.mem_cons_of_mem _ hx)

theorem countP_congr' {α : Type} {p q : α → Bool} :
    ∀ {l : List α}, (∀ a ∈ l, p a = q a) → l.countP p = l.countP q := by
  intro l
  induction l with
  | nil => intro _; rfl
  | cons a t ih =>
      intro h
      rw [List.countP_cons, List.countP_cons, ih (fun x hx => h x (List.mem_cons_of_mem _ hx)),
        h a (List.mem_cons_self _ _)]

theorem inv_resume {db : DB} (h : Inv db) (u : Nat) (t : Int) :
    Inv (resume_work_session db u t).2 := by
  obtain ⟨hA, hB, hC, hD, hE⟩ := h
  cases hf : db.sessions.find? (isPausedFor u) with
  | none =>
      simpa [resume_work_session, hf] using ⟨hA, hB, hC, hD, hE⟩
  | some s =>
      obtain ⟨l₁, l₂, hL, hl₁, hps⟩ := find?_split hf
      obtain ⟨hsu, hsa⟩ := isPausedFor_eq_true.mp hps
      have hmem : s ∈ db.sessions := by
        rw [hL]; exact List.mem_append_right _ (List.mem_cons_self _ _)
      have hnd' : ((l₁ ++ s :: l₂).map (fun t => t.id)).Nodup := by rw [← hL]; exact hB
      obtain ⟨hn1, hn2⟩ := ids_split_of_nodup hnd'
      have hupd : sessUpd db.sessions s.id (fun t => { t with status := Status.active }) =
          l₁ ++ { s with status := Status.active } :: l₂ := by
        rw [hL]; exact sessUpd_split hn1 hn2
      have hcnt : ∀ sid, openBreakCount (resume_work_session db u t).2 sid =
          if sid = s.id then 0 else openBreakCount db sid := by
        intro sid
        simp only [resume_work_session, hf]
        rw [openBreakCount_def, openBreakCount_def]
        show (db.breaks.map _).countP _ = _
        rw [List.countP_map]
        by_cases hsid : sid = s.id
        · subst hsid
          rw [if_pos rfl, List.countP_eq_zero]
          intro b hb hcontra
          simp only [Function.comp] at hcontra
          by_cases h1 : b.sessionId = s.id
          · cases h2 : b.endTime with
            | none => simp [h1, h2] at hcontra
            | some e => simp [h1, h2] at hcontra
          · simp [h1] at hcontra
        · rw [if_neg hsid]
          apply countP_congr'
          intro b hb
          have hss : (s.id == sid) = false := by
            have hne : s.id ≠ sid := fun hh => hsid hh.symm
            simp [hne]
          simp only [Function.comp]
          by_cases h1 : b.sessionId = s.id
          · cases h2 : b.endTime with
            | none => simp [h1, h2, hss]
            | some e => simp [h1, h2]
          · simp [h1]
      have hcnt' : ∀ sid, openBreakCount
          { db with
              sessions := l₁ ++ { s with status := Status.active } :: l₂,
              breaks := db.breaks.map (fun b =>
                if b.sessionId == s.id && b.endTime.isNone then
                  { b with endTime := some t, duration := some (t - b.startTime) }
                else b) } sid =
          if sid = s.id then 0 else openBreakCount db sid := by
        intro sid
        have := hcnt sid
        simp only [resume_work_session, hf, hupd] at this
        exact this
      simp only [resume_work_session, hf, hupd]
      refine ⟨?_, ?_, ?_, ?_, ?_⟩
      · intro x hx
        rcases List.mem_append.mp hx with hx | hx
        · exact hA x (by rw [hL]; exact List.mem_append_left _ hx)
        · rcases List.mem_cons.mp hx with rfl | hx
          · exact hA s hmem
          · refine hA x ?_
            rw [hL]
            exact List.mem_append_right _ (List.mem_cons_of_mem _ hx)
      · have hids : ((l₁ ++ { s with status := Status.active } :: l₂).map (fun t => t.id)) =
            ((l₁ ++ s :: l₂).map (fun t => t.id)) := by simp
        rw [hids]
        exact hnd'
      · intro b' hb'
        obtain ⟨b, hb, rfl⟩ := List.mem_map.mp hb'
        have hbs : (if b.sessionId == s.id && b.endTime.isNone then
            { b with endTime := some t, duration := some (t - b.startTime) }
          else b).sessionId = b.sessionId := by
          by_cases hgb : (b.sessionId == s.id && b.endTime.isNone) = true <;> simp [hgb]
        rw [hbs]
        exact hC b hb
      · intro u'
        have hpp : isOpenFor u' { s with status := Status.active } = isOpenFor u' s := by
          simp [isOpenFor, hsa]
        have hd := hD u'
        rw [openCount_def, hL, List.countP_append, List.countP_cons] at hd
        rw [openCount_def]
        show (l₁ ++ _ :: l₂).countP _ ≤ 1
        rw [List.countP_append, List.countP_cons, hpp]
        exact hd
      · intro x hx
        rcases List.mem_append.mp hx with hx | hx
        · have hxid : x.id ≠ s.id := hn1 x hx
          rw [hcnt' x.id, if_neg hxid]
          exact hE x (by rw [hL]; exact List.mem_append_left _ hx)
        · rcases List.mem_cons.mp hx with rfl | hx
          · show openBreakCount _ s.id ≤ 1 ∧
              (openBreakCount _ s.id = 1 ↔ Status.active = Status.paused)
            rw [hcnt' s.id, if_pos rfl]
            simp
          · have hxid : x.id ≠ s.id := hn2 x hx
            rw [hcnt' x.id, if_neg hxid]
            refine hE x ?_
            rw [hL]
            exact List.mem_append_right _ (List.mem_cons_of_mem _ hx)

theorem inv_end {db : DB} (h : Inv db) (u : Nat) (t : Int) :
    Inv (end_work_session db u t).2 := by
  obtain ⟨hA, hB, hC, hD, hE⟩ := h
  cases hf : db.sessions.find? (isActiveFor u) with
  | none =>
      simpa [end_work_session, hf] using ⟨hA, hB, hC, hD, hE⟩
  | some s =>
      obtain ⟨l₁, l₂, hL, hl₁, hps⟩ := find?_split hf
      obtain ⟨hsu, hsa⟩ := isActiveFor_eq_true.mp hps
      have hmem : s ∈ db.sessions := by
        rw [hL]; exact List.mem_append_right _ (List.mem_cons_self _ _)
      have hnd' : ((l₁ ++ s :: l₂).map (fun t => t.id)).Nodup := by rw [← hL]; exact hB
      obtain ⟨hn1, hn2⟩ := ids_split_of_nodup hnd'
      have hupd : sessUpd db.sessions s.id (fun x =>
          { x with endTime := some t, duration := some (t - s.startTime),
                   status := Status.completed }) =
          l₁ ++ { s with endTime := some t, duration := some (t - s.startTime),
                         status := Status.completed } :: l₂ := by
        rw [hL]; exact sessUpd_split hn1 hn2
      have hobs : openBreakCount db s.id = 0 := by
        have h1 := hE s hmem
        have hne : openBreakCount db s.id ≠ 1 := by
          intro hx
          rw [h1.2.mp hx] at hsa
          cases hsa
        omega
      simp only [end_work_session, hf, hupd]
      refine ⟨?_, ?_, ?_, ?_, ?_⟩
      · intro x hx
        rcases List.mem_append.mp hx with hx | hx
        · exact hA x (by rw [hL]; exact List.mem_append_left _ hx)
        · rcases List.mem_cons.mp hx with rfl | hx
          · exact hA s hmem
          · refine hA x ?_
            rw [hL]
            exact List.mem_append_right _ (List.mem_cons_of_mem _ hx)
      · have hids : ((l₁ ++ { s with
            endTime := some t,
            duration := some (t - s.startTime),
            status := Status.completed } :: l₂).map (fun x => x.id)) =
            ((l₁ ++ s :: l₂).map (fun x => x.id)) := by simp
        rw [hids]
        exact hnd'
      · intro b hb
        exact hC b hb
      · intro u'
        have hpc : isOpenFor u' { s with
            endTime := some t,
            duration := some (t - s.startTime),
            status := Status.completed } = false := by
          simp [isOpenFor]
        have hd := hD u'
        rw [openCount_def, hL, List.countP_append, List.countP_cons] at hd
        rw [openCount_def]
        show (l₁ ++ _ :: l₂).countP _ ≤ 1
        rw [List.countP_append, List.countP_cons, hpc]
        simp only [Bool.false_eq_true, if_false]
        split at hd <;> omega
      · intro x hx
        rcases List.mem_append.mp hx with hx | hx
        · exact hE x (by rw [hL]; exact List.mem_append_left _ hx)
        · rcases List.mem_cons.mp hx with rfl | hx
          · show openBreakCount db s.id ≤ 1 ∧
              (openBreakCount db s.id = 1 ↔ Status.completed = Status.paused)
            rw [hobs]
            simp
          · refine hE x ?_
            rw [hL]
            exact List.mem_append_right _ (List.mem_cons_of_mem _ hx)

theorem inv_applyOp {db : DB} (h : Inv db) (o : Op) : Inv (applyOp db o) := by
  cases o with
  | startOp u c t => exact inv_start h u c t
  | pauseOp u r t => exact inv_pause h u r t
  | resumeOp u t => exact inv_resume h u t
  | endOp u t => exact inv_end h u t

theorem inv_of_reachable {db : DB} (h : Reachable db) : Inv db := by
  induction h with
  | base => exact inv_empty
  | step o _ ih => exact inv_applyOp ih o

theorem le_div60_iff (m a : Int) : ((m : ℚ) ≤ (a : ℚ) / 60) ↔ 60 * m ≤ a := by
  rw [le_div_iff₀ (by norm_num : (0 : ℚ) < 60)]
  constructor
  · intro h
    have h' : ((60 * m : Int) : ℚ) ≤ ((a : Int) : ℚ) := by push_cast; linarith
    exact_mod_cast h'
  · intro h
    have h' : ((60 * m : Int) : ℚ) ≤ ((a : Int) : ℚ) := by exact_mod_cast h
    push_cast at h'
    linarith

theorem check_work_reminder_spec (db : DB) (u : Nat) (now : Int) :
    check_work_reminder db u now =
      match get_active_session db u with
      | none => (false, db)
      | some s =>
          if (get_reminder_settings db u).1.workReminderEnabled = true ∧
              60 * (get_reminder_settings db u).1.workReminderMinutes ≤ now - s.startTime ∧
              60 * (get_reminder_settings db u).1.workReminderMinutes ≤
                now - get_last_reminder_time db u "work_reminder" then
            (true, log_sent_reminder db u "work_reminder" (some s.id) now)
          else (false, db) := by
  rw [check_work_reminder]
  cases hs : get_active_session db u with
  | none => rfl
  | some s =>
      simp only
      by_cases hA : (get_reminder_settings db u).1.workReminderEnabled = true
      · by_cases hB : 60 * (get_reminder_settings db u).1.workReminderMinutes ≤
            now - s.startTime
        · by_cases hC : 60 * (get_reminder_settings db u).1.workReminderMinutes ≤
              now - get_last_reminder_time db u "work_reminder"
          · rw [if_pos ⟨hA, (le_div60_iff _ _).mpr hB⟩,
              if_pos ((le_div60_iff _ _).mpr hC), if_pos ⟨hA, hB, hC⟩]
          · rw [if_pos ⟨hA, (le_div60_iff _ _).mpr hB⟩,
              if_neg (fun hcc => hC ((le_div60_iff _ _).mp hcc)),
              if_neg (fun hh => hC hh.2.2)]
        · rw [if_neg (fun hh => hB ((le_div60_iff _ _).mp hh.2)),
            if_neg (fun hh => hB hh.2.1)]
      · rw [if_neg (fun hh => hA hh.1), if_neg (fun hh => hA hh.1)]

theorem monthAnchorsAux_mem {m0 last : Nat} :
    ∀ (fuel c : Nat), c % 7 = 0 → last + 1 ≤ c + fuel →
      ∀ a, (a ∈ monthAnchorsAux m0 last fuel c ↔ (∃ k, a = c + 7 * k) ∧ a ≤ last) := by
  intro fuel
  induction fuel with
  | zero =>
      intro c hc hle a
      rw [monthAnchorsAux]
      exact iff_of_false (by simp) (by rintro ⟨⟨k, rfl⟩, hk⟩; omega)
  | succ n ih =>
      intro c hc hle a
      rw [monthAnchorsAux]
      by_cases hcl : c ≤ last
      · rw [if_pos hcl, if_pos (by simp [hc])]
        simp only [List.mem_cons]
        rw [ih (c + 7) (by omega) (by omega) a]
        constructor
        · rintro (rfl | ⟨⟨k, rfl⟩, hk⟩)
          · exact ⟨⟨0, by omega⟩, hcl⟩
          · exact ⟨⟨k + 1, by omega⟩, hk⟩
        · rintro ⟨⟨k, rfl⟩, hk⟩
          cases k with
          | zero => left; omega
          | succ k' => right; exact ⟨⟨k', by omega⟩, hk⟩
      · rw [if_neg hcl]
        exact iff_of_false (by simp) (by rintro ⟨⟨k, rfl⟩, hk⟩; omega)

theorem monthAnchors_mem_of_monday {m0 len : Nat} (hm : m0 % 7 = 0) (a : Nat) :
    a ∈ monthAnchors m0 len ↔ (∃ k, a = m0 + 7 * k) ∧ a ≤ m0 + len - 1 := by
  rw [monthAnchors]
  exact monthAnchorsAux_mem (len + 1) m0 hm (by omega) a

theorem check_work_reminder_none {db : DB} {u : Nat} {now : Int}
    (h : get_active_session db u = none) :
    check_work_reminder db u now = (false, db) := by
  rw [check_work_reminder_spec, h]

theorem check_work_reminder_some {db : DB} {u : Nat} {now : Int} {s : Session}
    (h : get_active_session db u = some s) :
    check_work_reminder db u now =
      if (get_reminder_settings db u).1.workReminderEnabled = true ∧
          60 * (get_reminder_settings db u).1.workReminderMinutes ≤ now - s.startTime ∧
          60 * (get_reminder_settings db u).1.workReminderMinutes ≤
            now - get_last_reminder_time db u "work_reminder" then
        (true, log_sent_reminder db u "work_reminder" (some s.id) now)
      else (false, db) := by
  rw [check_work_reminder_spec, h]

/-! Claim theorems. -/

/-- C1: in every reachable state a user has at most one session with status
in `{active, paused}`; while one exists, every further `start` call returns
the conflict value `-1` and changes nothing, so only the first `start` of a
sequence without an intervening `end` creates a session row. -/
theorem claim_C1_at_most_one_open_session (db : DB) (h : Reachable db) (u : Nat)
    (c : String) (t : Int) :
    openCount db u ≤ 1 ∧
    (0 < openCount db u →
      (start_work_session db u c t).1 = -1 ∧ (start_work_session db u c t).2 = db) ∧
    (openCount db u = 0 →
      (start_work_session db u c t).2.sessions = db.sessions ++
        [{ id := db.nextSessionId, userId := u, startTime := t, endTime := none,
           duration := none, status := Status.active, category := c }]) := by
  obtain ⟨hA, hB, hC, hD, hE⟩ := inv_of_reachable h
  refine ⟨hD u, ?_, ?_⟩
  · intro hpos
    rw [openCount_def] at hpos
    obtain ⟨s, hs, hps⟩ := List.countP_pos_iff.mp hpos
    cases hf : db.sessions.find? (isOpenFor u) with
    | none => exact absurd (List.find?_eq_none.mp hf s hs) (by simp [hps])
    | some s' => exact ⟨by simp [start_work_session, hf], by simp [start_work_session, hf]⟩
  · intro hzero
    have hf : db.sessions.find? (isOpenFor u) = none := by
      rw [List.find?_eq_none]
      intro a ha
      rw [openCount_def, List.countP_eq_zero] at hzero
      simp [hzero a ha]
    simp [start_work_session, hf]

/-- Witness for C1 at the concrete reachable state holding one active
session of user 1. -/
theorem claim_C1_witness :
    Reachable (applyOp DB.empty (Op.startOp 1 "work" 0)) ∧
    (openCount (applyOp DB.empty (Op.startOp 1 "work" 0)) 1 ≤ 1 ∧
     (0 < openCount (applyOp DB.empty (Op.startOp 1 "work" 0)) 1 →
       (start_work_session (applyOp DB.empty (Op.startOp 1 "work" 0)) 1 "dev" 5).1 = -1 ∧
       (start_work_session (applyOp DB.empty (Op.startOp 1 "work" 0)) 1 "dev" 5).2 =
         applyOp DB.empty (Op.startOp 1 "work" 0)) ∧
     (openCount (applyOp DB.empty (Op.startOp 1 "work" 0)) 1 = 0 →
       (start_work_session (applyOp DB.empty (Op.startOp 1 "work" 0)) 1 "dev" 5).2.sessions =
         (applyOp DB.empty (Op.startOp 1 "work" 0)).sessions ++
           [{ id := (applyOp DB.empty (Op.startOp 1 "work" 0)).nextSessionId, userId := 1,
              startTime := 5, endTime := none, duration := none, status := Status.active,
              category := "dev" }])) :=
  have hr : Reachable (applyOp DB.empty (Op.startOp 1 "work" 0)) :=
    Reachable.step (Op.startOp 1 "work" 0) Reachable.base
  ⟨hr, claim_C1_at_most_one_open_session (applyOp DB.empty (Op.startOp 1 "work" 0)) hr 1 "dev" 5⟩

/-- C5: in every reachable state each session has at most one open break
and has one exactly when its status is `paused`, and any single further
operation (start, pause, resume or end) preserves this invariant. -/
theorem claim_C5_break_invariant (db : DB) (h : Reachable db) (o : Op) :
    BreakInv db ∧ BreakInv (applyOp db o) := by
  have hi := inv_of_reachable h
  exact ⟨hi.2.2.2.2, (inv_applyOp hi o).2.2.2.2⟩

/-- Witness for C5 at the concrete reachable state holding one active
session, with a pause operation applied to it. -/
theorem claim_C5_witness :
    Reachable (applyOp DB.empty (Op.startOp 1 "work" 0)) ∧
    (BreakInv (applyOp DB.empty (Op.startOp 1 "work" 0)) ∧
     BreakInv (applyOp (applyOp DB.empty (Op.startOp 1 "work" 0))
       (Op.pauseOp 1 "lunch" 600))) :=
  have hr : Reachable (applyOp DB.empty (Op.startOp 1 "work" 0)) :=
    Reachable.step (Op.startOp 1 "work" 0) Reachable.base
  ⟨hr, claim_C5_break_invariant (applyOp DB.empty (Op.startOp 1 "work" 0)) hr
    (Op.pauseOp 1 "lunch" 600)⟩

/-- C9 counterexample: when the user already has an open session, `start`
returns the bare sentinel `-1`; two states whose open sessions differ get
the same result value, so the conflict result does not carry the existing
session, contrary to the claim. -/
theorem claim_C9_counterexample :
    (start_work_session (applyOp DB.empty (Op.startOp 1 "alpha" 0)) 1 "gamma" 50).1 = -1 ∧
    (start_work_session (applyOp DB.empty (Op.startOp 1 "beta" 0)) 1 "gamma" 50).1 = -1 ∧
    (start_work_session (applyOp DB.empty (Op.startOp 1 "alpha" 0)) 1 "gamma" 50).1 =
      (start_work_session (applyOp DB.empty (Op.startOp 1 "beta" 0)) 1 "gamma" 50).1 ∧
    get_active_session (applyOp DB.empty (Op.startOp 1 "alpha" 0)) 1 ≠
      get_active_session (applyOp DB.empty (Op.startOp 1 "beta" 0)) 1 := by
  decide

/-- C9 amended: whenever `start` is called while the user has a session
with status active or paused, it returns the sentinel value `-1` (a total
result, not an exception) and leaves the database unchanged, creating no
session row; the sentinel does not carry the existing session. -/
theorem claim_C9_conflict_result (db : DB) (u : Nat) (c : String) (t : Int)
    (s : Session) (hs : s ∈ db.sessions) (hopen : isOpenFor u s = true) :
    (start_work_session db u c t).1 = -1 ∧ (start_work_session db u c t).2 = db := by
  cases hf : db.sessions.find? (isOpenFor u) with
  | none => exact absurd (List.find?_eq_none.mp hf s hs) (by simp [hopen])
  | some s' => exact ⟨by simp [start_work_session, hf], by simp [start_work_session, hf]⟩

/-- Witness for the amended C9 at a concrete state with an open session. -/
theorem claim_C9_witness :
    ({ id := 1, userId := 1, startTime := 0, endTime := none, duration := none,
       status := Status.active, category := "alpha" } : Session) ∈
        (applyOp DB.empty (Op.startOp 1 "alpha" 0)).sessions ∧
    isOpenFor 1 { id := 1, userId := 1, startTime := 0, endTime := none, duration := none,
                  status := Status.active, category := "alpha" } = true ∧
    ((start_work_session (applyOp DB.empty (Op.startOp 1 "alpha" 0)) 1 "gamma" 50).1 = -1 ∧
     (start_work_session (applyOp DB.empty (Op.startOp 1 "alpha" 0)) 1 "gamma" 50).2 =
       applyOp DB.empty (Op.startOp 1 "alpha" 0)) :=
  ⟨by decide, by decide,
    claim_C9_conflict_result (applyOp DB.empty (Op.startOp 1 "alpha" 0)) 1 "gamma" 50
      { id := 1, userId := 1, startTime := 0, endTime := none, duration := none,
        status := Status.active, category := "alpha" } (by decide) (by decide)⟩

/-- C10: for a user with no stored settings row, `get_reminder_settings`
returns exactly the documented defaults (work 60 enabled, break 15 enabled,
long break 120 enabled, daily goal 480 disabled) and returns the database
state unchanged: the call is read-only. -/
theorem claim_C10_default_settings (db : DB) (u : Nat)
    (h : db.reminderSettings.find? (fun r => r.userId == u) = none) :
    get_reminder_settings db u =
      ({ userId := u, workReminderEnabled := true, workReminderMinutes := 60,
         breakReminderEnabled := true, breakReminderMinutes := 15,
         longBreakReminderEnabled := true, longBreakReminderMinutes := 120,
         dailyGoalEnabled := false, dailyGoalMinutes := 480 }, db) := by
  simp [get_reminder_settings, h, defaultReminderSettings]

/-- Witness for C10 at the empty database. -/
theorem claim_C10_witness :
    (DB.empty.reminderSettings.find? (fun r => r.userId == 3) = none) ∧
    get_reminder_settings DB.empty 3 =
      ({ userId := 3, workReminderEnabled := true, workReminderMinutes := 60,
         breakReminderEnabled := true, breakReminderMinutes := 15,
         longBreakReminderEnabled := true, longBreakReminderMinutes := 120,
         dailyGoalEnabled := false, dailyGoalMinutes := 480 }, DB.empty) :=
  ⟨by decide, claim_C10_default_settings DB.empty 3 (by decide)⟩

/-- C2 counterexample: an open-ended session started during day 0 overlaps
day 1 under the selection rule the claim describes (`overlapsWindow`), yet
the effective `get_sessions_by_timeframe` keeps only sessions whose start
time lies in the window, so `get_daily_stats` for day 1 selects nothing and
reports zero active sessions. -/
theorem claim_C2_counterexample :
    get_active_session (applyOp DB.empty (Op.startOp 1 "work" 3600)) 1 =
      some { id := 1, userId := 1, startTime := 3600, endTime := none, duration := none,
             status := Status.active, category := "work" } ∧
    overlapsWindow (dayStart 1) (dayEnd 1)
      { id := 1, userId := 1, startTime := 3600, endTime := none, duration := none,
        status := Status.active, category := "work" } = true ∧
    (get_daily_stats (applyOp DB.empty (Op.startOp 1 "work" 3600)) 1 1).active_sessions = 0 ∧
    (get_daily_stats (applyOp DB.empty (Op.startOp 1 "work" 3600)) 1 1).total_sessions = 0 := by
  refine ⟨by decide, by decide, by decide, by decide⟩

/-- C2 amended: `get_daily_stats` selects exactly the sessions of the user
whose start time falls inside the day window; consequently an open-ended
session counts toward `active_sessions` only on the day it started, and
`total_sessions` and `active_sessions` are the matching start-in-window
counts. -/
theorem claim_C2_daily_selection (db : DB) (u : Nat) (d : Nat) :
    (∀ s, s ∈ get_sessions_by_timeframe db u (dayStart d) (dayEnd d) ↔
      s ∈ db.sessions ∧ s.userId = u ∧ dayStart d ≤ s.startTime ∧ s.startTime ≤ dayEnd d) ∧
    (get_daily_stats db u d).total_sessions =
      db.sessions.countP (fun s => s.userId == u && decide (dayStart d ≤ s.startTime) &&
        decide (s.startTime ≤ dayEnd d)) ∧
    (get_daily_stats db u d).active_sessions =
      db.sessions.countP (fun s =>
        (decide (s.status = Status.active) || decide (s.status = Status.paused)) &&
        (s.userId == u && decide (dayStart d ≤ s.startTime) &&
          decide (s.startTime ≤ dayEnd d))) := by
  refine ⟨?_, ?_, ?_⟩
  · intro s
    simp [get_sessions_by_timeframe, List.mem_filter, and_assoc]
  · exact (List.countP_eq_length_filter _ _).symm
  · show ((db.sessions.filter _).filter _).length = _
    rw [List.filter_filter, ← List.countP_eq_length_filter]

/-- C3 counterexample: a user holding a `paused` session (reached by start
then pause) gets `none` from `end_work_session`, which completes nothing —
the query matches only status `active`, so a paused session cannot be ended
directly, contrary to the claim. -/
theorem claim_C3_counterexample :
    get_active_session (applyOp (applyOp DB.empty (Op.startOp 1 "work" 0))
        (Op.pauseOp 1 "lunch" 600)) 1 =
      some { id := 1, userId := 1, startTime := 0, endTime := none, duration := none,
             status := Status.paused, category := "work" } ∧
    end_work_session (applyOp (applyOp DB.empty (Op.startOp 1 "work" 0))
        (Op.pauseOp 1 "lunch" 600)) 1 900 =
      (none, applyOp (applyOp DB.empty (Op.startOp 1 "work" 0))
        (Op.pauseOp 1 "lunch" 600)) := by
  refine ⟨by decide, by decide⟩

/-- C3 amended: `end_work_session` returns `none` exactly when the user has
no session with status `active` (in particular a `paused` session is not
ended and yields `none`); when an `active` session is found it is returned
completed, with end time and duration set. -/
theorem claim_C3_end_only_active (db : DB) (u : Nat) (t : Int)
    (hnd : (db.sessions.map (fun s => s.id)).Nodup) :
    ((end_work_session db u t).1 = none ↔
      ∀ s ∈ db.sessions, ¬(s.userId = u ∧ s.status = Status.active)) ∧
    (∀ s, db.sessions.find? (isActiveFor u) = some s →
      (end_work_session db u t).1 =
        some { s with
          endTime := some t,
          duration := some (t - s.startTime),
          status := Status.completed }) := by
  constructor
  · cases hf : db.sessions.find? (isActiveFor u) with
    | none =>
        apply iff_of_true
        · simp [end_work_session, hf]
        · intro s hs hcon
          have hfalse := List.find?_eq_none.mp hf s hs
          exact hfalse (isActiveFor_eq_true.mpr hcon)
    | some s =>
        obtain ⟨l₁, l₂, hL, hl₁, hps⟩ := find?_split hf
        obtain ⟨hsu, hsa⟩ := isActiveFor_eq_true.mp hps
        have hmem : s ∈ db.sessions := by
          rw [hL]; exact List.mem_append_right _ (List.mem_cons_self _ _)
        have hnd' : ((l₁ ++ s :: l₂).map (fun x => x.id)).Nodup := by
          rw [← hL]; exact hnd
        obtain ⟨hn1, hn2⟩ := ids_split_of_nodup hnd'
        have hupd : sessUpd db.sessions s.id (fun x =>
            { x with endTime := some t, duration := some (t - s.startTime),
                     status := Status.completed }) =
            l₁ ++ { s with
              endTime := some t,
              duration := some (t - s.startTime),
              status := Status.completed } :: l₂ := by
          rw [hL]; exact sessUpd_split hn1 hn2
        have hfind : (l₁ ++ ({ s with
            endTime := some t,
            duration := some (t - s.startTime),
            status := Status.completed } : Session) :: l₂).find?
              (fun x => x.id == s.id) =
            some { s with
              endTime := some t,
              duration := some (t - s.startTime),
              status := Status.completed } := find?_id_split hn1 rfl
        apply iff_of_false
        · simp only [end_work_session, hf, hupd]
          rw [hfind]
          simp
        · intro hall
          exact hall s hmem ⟨hsu, hsa⟩
  · intro s hf
    obtain ⟨l₁, l₂, hL, hl₁, hps⟩ := find?_split hf
    have hnd' : ((l₁ ++ s :: l₂).map (fun x => x.id)).Nodup := by
      rw [← hL]; exact hnd
    obtain ⟨hn1, hn2⟩ := ids_split_of_nodup hnd'
    have hupd : sessUpd db.sessions s.id (fun x =>
        { x with endTime := some t, duration := some (t - s.startTime),
                 status := Status.completed }) =
        l₁ ++ { s with
          endTime := some t,
          duration := some (t - s.startTime),
          status := Status.completed } :: l₂ := by
      rw [hL]; exact sessUpd_split hn1 hn2
    have hfind : (l₁ ++ ({ s with
        endTime := some t,
        duration := some (t - s.startTime),
        status := Status.completed } : Session) :: l₂).find?
          (fun x => x.id == s.id) =
        some { s with
          endTime := some t,
          duration := some (t - s.startTime),
          status := Status.completed } := find?_id_split hn1 rfl
    simp only [end_work_session, hf, hupd]
    rw [hfind]

/-- Witness for the amended C3 at a concrete state with an active session
of user 1, ended at time 900. -/
theorem claim_C3_witness :
    ((applyOp DB.empty (Op.startOp 1 "work" 0)).sessions.map (fun s => s.id)).Nodup ∧
    (((end_work_session (applyOp DB.empty (Op.startOp 1 "work" 0)) 1 900).1 = none ↔
       ∀ s ∈ (applyOp DB.empty (Op.startOp 1 "work" 0)).sessions,
         ¬(s.userId = 1 ∧ s.status = Status.active)) ∧
     (∀ s, (applyOp DB.empty (Op.startOp 1 "work" 0)).sessions.find? (isActiveFor 1) =
         some s →
       (end_work_session (applyOp DB.empty (Op.startOp 1 "work" 0)) 1 900).1 =
         some { s with
           endTime := some 900,
           duration := some (900 - s.startTime),
           status := Status.completed })) :=
  ⟨by decide, claim_C3_end_only_active (applyOp DB.empty (Op.startOp 1 "work" 0)) 1 900
    (by decide)⟩

/-- C4: starting at time 0, pausing at 600 s (10 min), resuming at 900 s
(15 min) and ending at 1200 s (20 min) yields one completed session with
duration 1200 s — wall-clock elapsed time, breaks not subtracted — and
exactly one break row with duration 300 s. -/
theorem claim_C4_pause_resume_duration :
    (end_work_session (applyOp (applyOp (applyOp DB.empty (Op.startOp 1 "work" 0))
        (Op.pauseOp 1 "lunch" 600)) (Op.resumeOp 1 900)) 1 1200).1 =
      some { id := 1, userId := 1, startTime := 0, endTime := some 1200,
             duration := some 1200, status := Status.completed, category := "work" } ∧
    (end_work_session (applyOp (applyOp (applyOp DB.empty (Op.startOp 1 "work" 0))
        (Op.pauseOp 1 "lunch" 600)) (Op.resumeOp 1 900)) 1 1200).2.sessions =
      [{ id := 1, userId := 1, startTime := 0, endTime := some 1200,
         duration := some 1200, status := Status.completed, category := "work" }] ∧
    (end_work_session (applyOp (applyOp (applyOp DB.empty (Op.startOp 1 "work" 0))
        (Op.pauseOp 1 "lunch" 600)) (Op.resumeOp 1 900)) 1 1200).2.breaks =
      [{ id := 1, sessionId := 1, userId := 1, startTime := 600, endTime := some 900,
         duration := some 300, reason := "lunch" }] := by
  refine ⟨by decide, by decide, by decide⟩

/-- C6: the weekly statistics equal the sum of the seven daily statistics
for Monday through Sunday of the week of any given date: the per-day list
is the Monday-first sequence of `get_daily_stats` results, every total
field is the additive sum over those seven days, and the category map is
merged by summing count and duration per category key. -/
theorem claim_C6_weekly_is_sum_of_daily (db : DB) (u : Nat) (d : Nat) :
    (get_weekly_stats db u d).daily_stats =
      (List.range 7).map (fun i => get_daily_stats db u (mondayOf d + i)) ∧
    (get_weekly_stats db u d).total_sessions =
      ((List.range 7).map
        (fun i => (get_daily_stats db u (mondayOf d + i)).total_sessions)).sum ∧
    (get_weekly_stats db u d).total_duration =
      ((List.range 7).map
        (fun i => (get_daily_stats db u (mondayOf d + i)).total_duration)).sum ∧
    (get_weekly_stats db u d).total_breaks =
      ((List.range 7).map
        (fun i => (get_daily_stats db u (mondayOf d + i)).total_breaks)).sum ∧
    (get_weekly_stats db u d).break_duration =
      ((List.range 7).map
        (fun i => (get_daily_stats db u (mondayOf d + i)).break_duration)).sum ∧
    (∀ c, (get_weekly_stats db u d).categories c =
      (((List.range 7).map
          (fun i => ((get_daily_stats db u (mondayOf d + i)).categories c).1)).sum,
       ((List.range 7).map
          (fun i => ((get_daily_stats db u (mondayOf d + i)).categories c).2)).sum)) := by
  exact ⟨rfl, rfl, rfl, rfl, rfl, fun c => rfl⟩

/-- C7 counterexample: for a 31-day month whose first day is a Wednesday
(absolute day 2; for instance October 2025), day 7 of the month (the first
Monday) lies between the first listed week, which spans days 0 to 6, and
the second, which starts at day 14 — so it belongs to no listed week and
the listed weeks do not partition the month. -/
theorem claim_C7_counterexample :
    (2 : Nat) % 7 ≠ 0 ∧ (2 : Nat) ≤ 7 ∧ (7 : Nat) ≤ 2 + 31 - 1 ∧
    (get_monthly_stats DB.empty 1 2 31).weekly_stats.map
        (fun w => (w.start_date, w.end_date)) = [(0, 6), (14, 20), (21, 27), (28, 34)] ∧
    (((get_monthly_stats DB.empty 1 2 31).weekly_stats.map
        (fun w => (w.start_date, w.end_date))).filter
      (fun q => decide (q.1 ≤ 7) && decide (7 ≤ q.2))).length = 0 := by
  refine ⟨by decide, by decide, by decide, by decide, by decide⟩

/-- C7 amended: the weekly sub-list of the monthly statistics is the week
loop anchored at day 1 and then at 7-day steps that land on Mondays, each
week computed by `get_weekly_stats` at its anchor; when the month starts on
a Monday (and only then is the partition claim intact) every day of the
month lies in exactly one listed week. -/
theorem claim_C7_month_partition (db : DB) (u : Nat) (m0 len d : Nat)
    (hm : m0 % 7 = 0) (hd1 : m0 ≤ d) (hd2 : d ≤ m0 + len - 1) :
    (get_monthly_stats db u m0 len).weekly_stats =
      (monthAnchors m0 len).map (get_weekly_stats db u) ∧
    ∃! a, a ∈ monthAnchors m0 len ∧ mondayOf a ≤ d ∧ d ≤ mondayOf a + 6 := by
  refine ⟨rfl, ?_⟩
  have hmon : ∀ k : Nat, mondayOf (m0 + 7 * k) = m0 + 7 * k := by
    intro k
    rw [mondayOf]
    omega
  refine ⟨m0 + 7 * ((d - m0) / 7), ⟨?_, ?_, ?_⟩, ?_⟩
  · rw [monthAnchors_mem_of_monday hm]
    exact ⟨⟨(d - m0) / 7, rfl⟩, by omega⟩
  · rw [hmon]
    omega
  · rw [hmon]
    omega
  · rintro a ⟨ham, hw1, hw2⟩
    rw [monthAnchors_mem_of_monday hm] at ham
    obtain ⟨⟨k, rfl⟩, hal⟩ := ham
    rw [hmon] at hw1 hw2
    omega

/-- Witness for the amended C7: a 31-day month starting on a Monday
(absolute day 0), with day 10 of the month. -/
theorem claim_C7_witness :
    (0 : Nat) % 7 = 0 ∧ (0 : Nat) ≤ 10 ∧ (10 : Nat) ≤ 0 + 31 - 1 ∧
    ((get_monthly_stats DB.empty 1 0 31).weekly_stats =
      (monthAnchors 0 31).map (get_weekly_stats DB.empty 1) ∧
     ∃! a, a ∈ monthAnchors 0 31 ∧ mondayOf a ≤ 10 ∧ 10 ≤ mondayOf a + 6) :=
  ⟨by decide, by decide, by decide,
    claim_C7_month_partition DB.empty 1 0 31 10 (by decide) (by decide) (by decide)⟩

/-- C8: at any evaluation tick the work reminder fires exactly when it is
enabled, the user has an active or paused session, the elapsed session
minutes reach `work_reminder_minutes`, and at least `work_reminder_minutes`
minutes passed since the last sent work reminder (far past when none was
ever sent); concretely, with the default 60-minute setting a session
started 65 minutes ago with no prior work reminder fires, re-evaluating 1
minute later does not fire, and re-evaluating 61 minutes after the first
firing fires again. -/
theorem claim_C8_work_reminder_debounce :
    (∀ (db : DB) (u : Nat) (now : Int),
      ((check_work_reminder db u now).1 = true ↔
        ∃ s, get_active_session db u = some s ∧
          (get_reminder_settings db u).1.workReminderEnabled = true ∧
          60 * (get_reminder_settings db u).1.workReminderMinutes ≤ now - s.startTime ∧
          60 * (get_reminder_settings db u).1.workReminderMinutes ≤
            now - get_last_reminder_time db u "work_reminder")) ∧
    (check_work_reminder (applyOp DB.empty (Op.startOp 7 "work" 0)) 7 3900).1 = true ∧
    (check_work_reminder
      (check_work_reminder (applyOp DB.empty (Op.startOp 7 "work" 0)) 7 3900).2
      7 3960).1 = false ∧
    (check_work_reminder
      (check_work_reminder (applyOp DB.empty (Op.startOp 7 "work" 0)) 7 3900).2
      7 7560).1 = true := by
  have h1 : check_work_reminder (applyOp DB.empty (Op.startOp 7 "work" 0)) 7 3900 =
      (true, log_sent_reminder (applyOp DB.empty (Op.startOp 7 "work" 0)) 7
        "work_reminder" (some 1) 3900) := by
    rw [check_work_reminder_spec]
    decide
  refine ⟨?_, ?_, ?_, ?_⟩
  · intro db u now
    cases hs : get_active_session db u with
    | none => simp [check_work_reminder_none hs, hs]
    | some s =>
        rw [check_work_reminder_some hs]
        by_cases hcond : (get_reminder_settings db u).1.workReminderEnabled = true ∧
            60 * (get_reminder_settings db u).1.workReminderMinutes ≤ now - s.startTime ∧
            60 * (get_reminder_settings db u).1.workReminderMinutes ≤
              now - get_last_reminder_time db u "work_reminder"
        · rw [if_pos hcond]
          simp only [true_iff]
          exact ⟨s, rfl, hcond⟩
        · rw [if_neg hcond]
          simp only [Bool.false_eq_true, false_iff]
          rintro ⟨s', hs', hc⟩
          injection hs' with hss
          subst hss
          exact hcond hc
  · rw [h1]
  · rw [h1, check_work_reminder_spec]
    decide
  · rw [h1, check_work_reminder_spec]
    decide

end Tracker
